import Mathlib

/-!
Verification of `examples/initial_load/server.go`.

A shallow embedding of the initial-load example server: the `ensureTraceHeader`
middleware, `randHex`, `handleRequest` and the handler pipeline composed in `main`.

Go strings are embedded as Lean strings.  Every string the server slices is the
output of `hex.EncodeToString`, which is ASCII, so a byte index is a character
index.  A handler is a function on an explicit `World` (the request, the response
written so far and the state of the sources of randomness); a Go `panic` is the
`Outcome.panicked` result, which keeps the state reached when the panic was raised.
-/

namespace InitialLoad

/-! ## Bytes and `encoding/hex` -/

/-- A Go `byte`. -/
abbrev Byte := Fin 256

/-- The table `hextable` of `encoding/hex`. -/
def hextable : String := "0123456789abcdef"

/-- The character `hextable[i]`. -/
def hexDigit (i : Nat) : Char := hextable.data.getD i '?'

/-- The body of the loop of `hex.Encode`: `hextable[v>>4]`, then `hextable[v&0x0f]`. -/
def encodeByte (v : Byte) : List Char := [hexDigit (v.val / 16), hexDigit (v.val % 16)]

/-- The characters written by `hex.Encode` for the source bytes `src`. -/
def encodeChars : List Byte → List Char
  | [] => []
  | v :: rest => encodeByte v ++ encodeChars rest

/-- The function `hex.EncodeToString`. -/
def EncodeToString (src : List Byte) : String := ⟨encodeChars src⟩

/-! ## `crypto/rand` -/

/-- The state of the cryptographic random source: what it will deliver, byte by byte.
An entry `none` is a position at which the source fails; a source that has run dry
fails as well. -/
abbrev RandSource := List (Option Byte)

/-- Reads `n` bytes off the source: `some (b, rest)` when the next `n` positions all
deliver a byte, `none` when the source fails first. -/
def readBytes : Nat → RandSource → Option (List Byte × RandSource)
  | 0, src => some ([], src)
  | _ + 1, [] => none
  | _ + 1, none :: _ => none
  | n + 1, some v :: src =>
    match readBytes n src with
    | none => none
    | some (b, rest) => some (v :: b, rest)

/-- Why a handler panicked. -/
inductive Panic where
  /-- The call `make([]byte, n)` with `n` negative or above `maxAlloc`. -/
  | makeslice
  /-- The call `panic(err)` of `randHex`: `cryptoRand.Read` returned an error. -/
  | randRead
  /-- A slice expression `s[:n]` with `n` out of range. -/
  | sliceBounds
  /-- The call `template.Must` on a template that failed to parse. -/
  | templateMust
  deriving DecidableEq, Repr

deriving instance DecidableEq for Except

/-- The largest number of bytes that `make([]byte, n)` accepts: the constant `maxAlloc`
of the Go runtime on a 64-bit platform, `2 ^ 48`. -/
def maxAlloc : Int := 281474976710656

/-- The slice expression `s[:n]` on an ASCII string. -/
def sliceTo (s : String) (n : Int) : Except Panic String :=
  if n < 0 ∨ (s.data.length : Int) < n then .error .sliceBounds
  else .ok ⟨s.data.take n.toNat⟩

/-- The function `randHex`.
```go
func randHex(numBytes int) string {
	b := make([]byte, numBytes/2)
	if _, err := cryptoRand.Read(b); err != nil {
		panic(err)
	}
	return hex.EncodeToString(b)[:numBytes]
}
```
Go's integer division truncates towards zero, and `make` panics on a length that is
negative or above `maxAlloc`. -/
def randHex (numBytes : Int) (src : RandSource) : Except Panic (String × RandSource) :=
  if Int.tdiv numBytes 2 < 0 ∨ maxAlloc < Int.tdiv numBytes 2 then .error .makeslice
  else
    match readBytes (Int.tdiv numBytes 2).toNat src with
    | none => .error .randRead
    | some (b, rest) =>
      match sliceTo (EncodeToString b) numBytes with
      | .error p => .error p
      | .ok s => .ok (s, rest)

/-! ## `net/http` headers -/

/-- The punctuation that may occur in a header field name (an RFC 7230 token). -/
def tokenPunct : String := "!#$%&'*+-.^_`|~"

/-- The function `validHeaderFieldByte` of `net/textproto`. -/
def validHeaderFieldByte (c : Char) : Bool := c.isAlphanum || tokenPunct.data.contains c

/-- The loop of `canonicalMIMEHeaderKey`: a letter that starts the key or follows a
dash is put in upper case, every other letter in lower case. -/
def canonChars : Bool → List Char → List Char
  | _, [] => []
  | upper, c :: cs =>
    let c1 := if upper && c.isLower then c.toUpper
      else if !upper && c.isUpper then c.toLower else c
    c1 :: canonChars (c1 == '-') cs

/-- The function `textproto.CanonicalMIMEHeaderKey`: a key with a byte that is not
valid in a field name is returned unchanged. -/
def CanonicalMIMEHeaderKey (s : String) : String :=
  if s.data.all validHeaderFieldByte then ⟨canonChars true s.data⟩ else s

/-- The type `http.Header`, a `map[string][]string`: `none` is a key that is absent. -/
structure Header where
  entries : String → Option (List String)

/-- The map read `h[key]`: the nil slice when the key is absent. -/
def Header.index (h : Header) (key : String) : List String := (h.entries key).getD []

/-- The method `Header.Get`: the first value under the canonical form of `key`, or
`""` when there is none. -/
def Header.Get (h : Header) (key : String) : String :=
  match h.index (CanonicalMIMEHeaderKey key) with
  | [] => ""
  | v :: _ => v

/-- The method `Header.Values`: all values under the canonical form of `key`. -/
def Header.Values (h : Header) (key : String) : List String :=
  h.index (CanonicalMIMEHeaderKey key)

/-- The method `Header.Add`: `h[key] = append(h[key], value)` at the canonical key. -/
def Header.Add (h : Header) (key value : String) : Header :=
  ⟨fun k => if k = CanonicalMIMEHeaderKey key
    then some (h.index (CanonicalMIMEHeaderKey key) ++ [value]) else h.entries k⟩

/-- The part of `*http.Request` the server looks at. -/
structure Request where
  Header : Header
  Path : String

/-! ## State and handlers -/

/-- The type `pageData`: data rendered to the HTML template. -/
structure pageData where
  Traceparent : String
  AgentEndpoint : String
  OcwScriptEndpoint : String
  deriving DecidableEq, Repr

/-- What the process is started with: the values of the flags `agent` and
`ocw_script_prefix`, and what `template.ParseFiles("index.html")` yields (`none`
when the file is missing or malformed, else the function `tmpl.Execute` computes). -/
structure Env where
  agentEndpoint : String
  ocwScriptEndpoint : String
  indexHTML : Option (pageData → String)

/-- The state a handler runs on. -/
structure World where
  /-- The request `r`. -/
  r : Request
  /-- What has been written to the response writer `w`, oldest first. -/
  w : List String
  /-- The state of `crypto/rand`. -/
  cryptoRand : RandSource
  /-- The state of `math/rand`: the raw values it will deliver. -/
  mathRand : List Nat
  /-- The nanoseconds spent in `time.Sleep`. -/
  slept : Int
  /-- The names of the spans that were started and ended, oldest first. -/
  spans : List String

/-- How a call of a handler ends: it returns, or it panics in the given state. -/
inductive Outcome where
  | done (st : World)
  | panicked (p : Panic) (st : World)

/-- The method `ServeHTTP(w, r)` of an `http.Handler`. -/
abbrev Handler := World → Outcome

/-- The format `fmt.Sprintf("00-%s-%s-01", a, b)`. -/
def Sprintf_traceparent (a b : String) : String := "00-" ++ a ++ "-" ++ b ++ "-01"

/-- The line `traceparent := fmt.Sprintf("00-%s-%s-01", randHex(32), randHex(16))`:
Go evaluates the calls from left to right, so the trace id is drawn first.  An error
carries the state of the source before the read that failed. -/
def newTraceparent (src : RandSource) : Except (Panic × RandSource) (String × RandSource) :=
  match randHex 32 src with
  | .error p => .error (p, src)
  | .ok (a, src1) =>
    match randHex 16 src1 with
    | .error p => .error (p, src1)
    | .ok (b, src2) => .ok (Sprintf_traceparent a b, src2)

/-- The middleware `ensureTraceHeader`.
```go
func ensureTraceHeader(next http.Handler) http.HandlerFunc {
	return func(w http.ResponseWriter, r *http.Request) {
		traceparent := fmt.Sprintf("00-%s-%s-01", randHex(32), randHex(16))
		r.Header.Add("traceparent", traceparent)
		next.ServeHTTP(w, r)
	}
}
``` -/
def ensureTraceHeader (next : Handler) : Handler := fun st =>
  match newTraceparent st.cryptoRand with
  | .error (p, src) => .panicked p { st with cryptoRand := src }
  | .ok (traceparent, src) =>
    next { st with
      cryptoRand := src
      r := { st.r with Header := st.r.Header.Add "traceparent" traceparent } }

/-- The conversion of an integer to `int64` (two's complement wrap-around). -/
def wrapInt64 (x : Int) : Int := (x + 2 ^ 63) % 2 ^ 64 - 2 ^ 63

/-- The constant `time.Millisecond`, in nanoseconds. -/
def Millisecond : Int := 1000000

/-- The duration `time.Duration(k+1) * time.Millisecond` for `k` the value returned by
`rand.Intn(100)`, in nanoseconds. -/
def sleepDuration (k : Int) : Int := wrapInt64 (wrapInt64 (k + 1) * Millisecond)

/-- The function `rand.Intn(n)` for `0 < n`: a value in `[0, n)`, taken off the state
of `math/rand`. -/
def Intn (n : Nat) : List Nat → Int × List Nat
  | [] => (0, [])
  | x :: rest => (((x % n : Nat) : Int), rest)

/-- The handler `handleRequest`.
```go
func handleRequest(w http.ResponseWriter, r *http.Request) {
	_, parseSpan := trace.StartSpan(r.Context(), "Parse template")
	tmpl := template.Must(template.ParseFiles("index.html"))
	parseSpan.End()
	_, delaySpan := trace.StartSpan(r.Context(), "Random delay")
	time.Sleep(time.Duration(rand.Intn(100)+1) * time.Millisecond)
	delaySpan.End()
	_, renderSpan := trace.StartSpan(r.Context(), "Render template")
	data := pageData{
		Traceparent:       r.Header.Get("traceparent"),
		AgentEndpoint:     *agentEndpoint,
		OcwScriptEndpoint: *ocwScriptEndpoint,
	}
	tmpl.Execute(w, data)
	renderSpan.End()
}
``` -/
def handleRequest (env : Env) : Handler := fun st =>
  match env.indexHTML with
  | none => .panicked .templateMust st
  | some tmpl =>
    let k := Intn 100 st.mathRand
    let data : pageData :=
      { Traceparent := st.r.Header.Get "traceparent"
        AgentEndpoint := env.agentEndpoint
        OcwScriptEndpoint := env.ocwScriptEndpoint }
    .done { st with
      mathRand := k.2
      slept := st.slept + max (sleepDuration k.1) 0
      w := st.w ++ [tmpl data]
      spans := st.spans ++ ["Parse template", "Random delay", "Render template"] }

/-! ## The pipeline composed in `main` -/

/-- The type `ochttp.Handler` of `go.opencensus.io/plugin/ochttp`, which is not part
of this repository: its `ServeHTTP` starts the server span from the request (this
is where the propagation header is read), serves the wrapped `Handler`, and ends
the span.  What starting and ending the span do is left open. -/
structure OchttpHandler where
  Handler : Handler
  startTrace : World → World
  traceEnd : Outcome → Outcome

/-- The method `ServeHTTP` of `ochttp.Handler`. -/
def OchttpHandler.ServeHTTP (h : OchttpHandler) : InitialLoad.Handler := fun st =>
  h.traceEnd (h.Handler (h.startTrace st))

/-- Where `http.ServeMux` sends a request. -/
inductive Route where
  /-- The pattern `"/"`, registered with `handleRequest`. -/
  | root
  /-- The pattern `"/static/"`, registered with the file server. -/
  | static
  /-- A handler of `net/http` itself (a redirect to the clean path, for one). -/
  | internal (h : Handler)

/-- The serve mux of `main`: `handleRequest` at `"/"`, the file server at
`"/static/"`.  The matching of patterns belongs to `net/http` and is left open. -/
structure ServeMux where
  route : Request → Route
  handleRoot : Handler
  handleStatic : Handler

/-- The method `ServeHTTP` of `http.ServeMux`: the request goes unchanged to the
handler that its pattern selects. -/
def ServeMux.ServeHTTP (m : ServeMux) : Handler := fun st =>
  match m.route st.r with
  | .root => m.handleRoot st
  | .static => m.handleStatic st
  | .internal h => h st

/-- The handler that `main` passes to `http.ListenAndServe`.
```go
	serveMux := http.NewServeMux()
	serveMux.HandleFunc("/", handleRequest)
	fs := http.FileServer(http.Dir("static"))
	serveMux.Handle("/static/", http.StripPrefix("/static/", fs))
	var handler http.Handler = serveMux
	handler = &ochttp.Handler{
		Handler:     serveMux,
		Propagation: &tracecontext.HTTPFormat{},
	}
	handler = ensureTraceHeader(handler)
``` -/
def mainHandler (env : Env) (route : Request → Route) (fs : Handler)
    (startTrace : World → World) (traceEnd : Outcome → Outcome) : Handler :=
  let serveMux : ServeMux := { route := route, handleRoot := handleRequest env, handleStatic := fs }
  let handler : OchttpHandler :=
    { Handler := serveMux.ServeHTTP, startTrace := startTrace, traceEnd := traceEnd }
  ensureTraceHeader handler.ServeHTTP

/-! ## The format of the header, as the specification words it -/

/-- Whether `c` is in the class `[0-9a-f]`. -/
def isLowerHex (c : Char) : Bool := ('0' ≤ c && c ≤ '9') || ('a' ≤ c && c ≤ 'f')

/-- Matches `[0-9a-f]{n}` at the start of `cs` and returns what follows. -/
def matchHex : Nat → List Char → Option (List Char)
  | 0, cs => some cs
  | _ + 1, [] => none
  | n + 1, c :: cs => if isLowerHex c then matchHex n cs else none

/-- Matches a dash at the start of `cs` and returns what follows. -/
def matchDash : List Char → Option (List Char)
  | '-' :: cs => some cs
  | _ => none

/-- Whether `s` matches `^[0-9a-f]{2}-[0-9a-f]{32}-[0-9a-f]{16}-[0-9a-f]{2}$`. -/
def matchesTraceparent (s : String) : Bool :=
  (((((((matchHex 2 s.data).bind matchDash).bind (matchHex 32)).bind matchDash).bind
    (matchHex 16)).bind matchDash).bind (matchHex 2)) == some []

/-- The trace-id field of a traceparent value: the 32 characters after `"00-"`. -/
def traceIdField (s : String) : String := ⟨(s.data.drop 3).take 32⟩

/-- The state in which a call of a handler ended. -/
def Outcome.state : Outcome → World
  | .done st => st
  | .panicked _ st => st

/-- Whether a call of a handler returned. -/
def Outcome.returned : Outcome → Bool
  | .done _ => true
  | .panicked _ _ => false

/-- The two lowercase hexadecimal digits of a byte, high digit first: its digits in
base 16, with a leading zero when there is one digit only. -/
def lowerHexByte (v : Byte) : List Char :=
  match Nat.toDigits 16 v.val with
  | [d] => ['0', d]
  | ds => ds

/-- The lowercase hexadecimal encoding `hex` of the specification: the digits of the
bytes, in order. -/
def lowerHex (b : List Byte) : String := ⟨b.flatMap lowerHexByte⟩

/-- The state in which `ensureTraceHeader` calls the next handler, when the source
delivers the trace id `t` and the span id `s` and is left in state `src`. -/
def ensured (st : World) (t s : List Byte) (src : RandSource) : World :=
  { st with
    cryptoRand := src
    r := { st.r with
      Header := st.r.Header.Add "traceparent"
        (Sprintf_traceparent (EncodeToString t) (EncodeToString s)) } }

/-! ## Sample inputs -/

/-- A header set with no entry. -/
def noHeader : Header := ⟨fun _ => none⟩

/-- A request for `/` with no header, a random source good for 24 zero bytes. -/
def plainWorld : World :=
  { r := { Header := noHeader, Path := "/" }
    w := []
    cryptoRand := List.replicate 24 (some 0)
    mathRand := [41]
    slept := 0
    spans := [] }

/-- The traceparent value of the scenario of the specification. -/
def sampleTraceparent : String := "00-aaaaaaaaaaaaaaaaaaaaaaaaaaaaaaaa-bbbbbbbbbbbbbbbb-01"

/-- The request of `plainWorld` with the header `Traceparent: sampleTraceparent`. -/
def tracedWorld : World :=
  { plainWorld with
    r := { Header := ⟨fun k => if k = "Traceparent" then some [sampleTraceparent] else none⟩
           Path := "/" } }

/-- The request of `plainWorld` with a random source that fails after 16 bytes. -/
def brokenWorld : World :=
  { plainWorld with cryptoRand := List.replicate 16 (some 0) ++ [none] }

/-- The default flags and a template that prints the traceparent. -/
def sampleEnv : Env :=
  { agentEndpoint := "http://localhost:55678"
    ocwScriptEndpoint := "http://localhost:8080"
    indexHTML := some fun data => data.Traceparent }

/-! ## Lemmas on the random source and on the encoding -/

theorem readBytes_eq_some {n : Nat} {src rest : RandSource} {b : List Byte}
    (h : readBytes n src = some (b, rest)) : b.length = n ∧ src = b.map some ++ rest := by
  induction n generalizing src b with
  | zero =>
    simp only [readBytes, Option.some.injEq, Prod.mk.injEq] at h
    obtain ⟨rfl, rfl⟩ := h
    simp
  | succ n ih =>
    match src, h with
    | some v :: src1, h =>
      simp only [readBytes] at h
      cases hr : readBytes n src1 with
      | none => simp [hr] at h
      | some q =>
        obtain ⟨b1, rest1⟩ := q
        simp only [hr, Option.some.injEq, Prod.mk.injEq] at h
        obtain ⟨rfl, rfl⟩ := h
        obtain ⟨h1, h2⟩ := ih hr
        simp [h1, h2]

theorem encodeChars_length (b : List Byte) : (encodeChars b).length = 2 * b.length := by
  induction b with
  | nil => rfl
  | cons v rest ih => simp [encodeChars, encodeByte, ih]; omega

theorem hexDigit_isLowerHex : ∀ i : Fin 16, isLowerHex (hexDigit i.val) = true := by decide

theorem hexDigit_injective : ∀ i j : Fin 16, hexDigit i.val = hexDigit j.val → i = j := by decide

theorem encodeChars_isLowerHex (b : List Byte) : ∀ c ∈ encodeChars b, isLowerHex c = true := by
  induction b with
  | nil => simp [encodeChars]
  | cons v rest ih =>
    intro c hc
    simp only [encodeChars, encodeByte, List.cons_append, List.nil_append, List.mem_cons] at hc
    rcases hc with rfl | rfl | hc
    · exact hexDigit_isLowerHex ⟨v.val / 16, by omega⟩
    · exact hexDigit_isLowerHex ⟨v.val % 16, by omega⟩
    · exact ih c hc

theorem encodeChars_injective {b1 b2 : List Byte} (h : encodeChars b1 = encodeChars b2) :
    b1 = b2 := by
  induction b1 generalizing b2 with
  | nil =>
    cases b2 with
    | nil => rfl
    | cons w r2 => simp [encodeChars, encodeByte] at h
  | cons v r1 ih =>
    cases b2 with
    | nil => simp [encodeChars, encodeByte] at h
    | cons w r2 =>
      simp only [encodeChars, encodeByte, List.cons_append, List.nil_append, List.cons.injEq] at h
      obtain ⟨h1, h2, h3⟩ := h
      have e1 := hexDigit_injective ⟨v.val / 16, by omega⟩ ⟨w.val / 16, by omega⟩ h1
      have e2 := hexDigit_injective ⟨v.val % 16, by omega⟩ ⟨w.val % 16, by omega⟩ h2
      simp only [Fin.mk.injEq] at e1 e2
      have hv : v = w := Fin.ext (by omega)
      rw [hv, ih h3]

theorem randHex_even {n : Nat} {src rest : RandSource} {b : List Byte}
    (hn : (n : Int) ≤ maxAlloc) (h : readBytes n src = some (b, rest)) :
    randHex (2 * (n : Int)) src = .ok (EncodeToString b, rest) := by
  have hlen := (readBytes_eq_some h).1
  have hdiv : Int.tdiv (2 * (n : Int)) 2 = (n : Int) := Int.mul_tdiv_cancel_left _ (by decide)
  have hl : (encodeChars b).length = 2 * n := by rw [encodeChars_length, hlen]
  have hnot : ¬ ((2 * (n : Int)) < 0 ∨ (((encodeChars b).length : Nat) : Int) < 2 * (n : Int)) := by
    rw [hl]; push_cast; omega
  have htake : (encodeChars b).take (2 * (n : Int)).toNat = encodeChars b := by
    apply List.take_of_length_le
    rw [hl]; omega
  unfold randHex
  rw [hdiv]
  simp only [Int.toNat_ofNat, h, sliceTo, EncodeToString]
  rw [if_neg (by omega), if_neg hnot, htake]

theorem randHex_read_fails {n : Nat} {src : RandSource} (hn : (n : Int) ≤ maxAlloc)
    (h : readBytes n src = none) :
    randHex (2 * (n : Int)) src = .error .randRead := by
  have hdiv : Int.tdiv (2 * (n : Int)) 2 = (n : Int) := Int.mul_tdiv_cancel_left _ (by decide)
  unfold randHex
  rw [hdiv]
  simp only [Int.toNat_ofNat, h]
  rw [if_neg (by omega)]

set_option maxRecDepth 100000 in
theorem encodeByte_eq_lowerHexByte : ∀ v : Byte, encodeByte v = lowerHexByte v := by decide

theorem EncodeToString_eq_lowerHex (b : List Byte) : EncodeToString b = lowerHex b := by
  have h : encodeChars b = b.flatMap lowerHexByte := by
    induction b with
    | nil => rfl
    | cons v rest ih => simp [encodeChars, ih, encodeByte_eq_lowerHexByte v]
  simp only [EncodeToString, lowerHex, h]

theorem randHex_odd {n : Nat} {src rest : RandSource} {b : List Byte}
    (hn : (n : Int) ≤ maxAlloc) (h : readBytes n src = some (b, rest)) :
    randHex (2 * (n : Int) + 1) src = .error .sliceBounds := by
  have hlen := (readBytes_eq_some h).1
  have hdiv : Int.tdiv (2 * (n : Int) + 1) 2 = (n : Int) := by
    rw [Int.tdiv_eq_ediv (by omega) (by omega)]; omega
  have hl : (encodeChars b).length = 2 * n := by rw [encodeChars_length, hlen]
  have hbad : (2 * (n : Int) + 1) < 0 ∨
      (((encodeChars b).length : Nat) : Int) < 2 * (n : Int) + 1 := by
    rw [hl]; push_cast; omega
  unfold randHex
  rw [hdiv]
  simp only [Int.toNat_ofNat, h, sliceTo, EncodeToString]
  rw [if_neg (by omega), if_pos hbad]

theorem newTraceparent_ok {src r1 r2 : RandSource} {t s : List Byte}
    (ht : readBytes 16 src = some (t, r1)) (hs : readBytes 8 r1 = some (s, r2)) :
    newTraceparent src =
      .ok (Sprintf_traceparent (EncodeToString t) (EncodeToString s), r2) := by
  have h1 : randHex 32 src = .ok (EncodeToString t, r1) := randHex_even (by decide) ht
  have h2 : randHex 16 r1 = .ok (EncodeToString s, r2) := randHex_even (by decide) hs
  simp only [newTraceparent, h1, h2]

theorem newTraceparent_first_fails {src : RandSource} (ht : readBytes 16 src = none) :
    newTraceparent src = .error (.randRead, src) := by
  have h1 : randHex 32 src = .error .randRead := randHex_read_fails (by decide) ht
  simp only [newTraceparent, h1]

theorem newTraceparent_second_fails {src r1 : RandSource} {t : List Byte}
    (ht : readBytes 16 src = some (t, r1)) (hs : readBytes 8 r1 = none) :
    newTraceparent src = .error (.randRead, r1) := by
  have h1 : randHex 32 src = .ok (EncodeToString t, r1) := randHex_even (by decide) ht
  have h2 : randHex 16 r1 = .error .randRead := randHex_read_fails (by decide) hs
  simp only [newTraceparent, h1, h2]

theorem Sprintf_traceparent_data (a b : String) :
    (Sprintf_traceparent a b).data =
      '0' :: '0' :: '-' :: (a.data ++ '-' :: (b.data ++ ['-', '0', '1'])) := by
  simp [Sprintf_traceparent, String.data_append]

theorem matchHex_append (xs rest : List Char) (h : ∀ c ∈ xs, isLowerHex c = true) :
    matchHex xs.length (xs ++ rest) = some rest := by
  induction xs with
  | nil => rfl
  | cons c cs ih =>
    have hc : isLowerHex c = true := h c (List.mem_cons_self c cs)
    have hcs : ∀ d ∈ cs, isLowerHex d = true := fun d hd => h d (List.mem_cons_of_mem c hd)
    simp [matchHex, hc, ih hcs]

theorem matchHex_encodeChars (b : List Byte) (rest : List Char) :
    matchHex (2 * b.length) (encodeChars b ++ rest) = some rest := by
  rw [← encodeChars_length]
  exact matchHex_append _ _ (encodeChars_isLowerHex b)

theorem matchesTraceparent_synthesized (t s : List Byte) (ht : t.length = 16)
    (hs : s.length = 8) :
    matchesTraceparent (Sprintf_traceparent (EncodeToString t) (EncodeToString s)) = true := by
  have h1 := matchHex_encodeChars t
  have h2 := matchHex_encodeChars s
  rw [ht] at h1
  rw [hs] at h2
  simp only [Nat.reduceMul] at h1 h2
  simp only [matchesTraceparent, Sprintf_traceparent_data, EncodeToString]
  simp [matchHex, isLowerHex, matchDash, h1, h2]

theorem Sprintf_traceparent_length (t s : List Byte) (ht : t.length = 16) (hs : s.length = 8) :
    (Sprintf_traceparent (EncodeToString t) (EncodeToString s)).length = 55 := by
  show (Sprintf_traceparent (EncodeToString t) (EncodeToString s)).data.length = 55
  simp [Sprintf_traceparent_data, EncodeToString, encodeChars_length, ht, hs]

theorem Sprintf_traceparent_injective {t1 t2 s1 s2 : List Byte} (hlen : t1.length = t2.length)
    (h : Sprintf_traceparent (EncodeToString t1) (EncodeToString s1) =
      Sprintf_traceparent (EncodeToString t2) (EncodeToString s2)) : t1 = t2 ∧ s1 = s2 := by
  have hd := congrArg String.data h
  simp only [Sprintf_traceparent_data, EncodeToString, List.cons.injEq, true_and] at hd
  have hl : (encodeChars t1).length = (encodeChars t2).length := by
    rw [encodeChars_length, encodeChars_length, hlen]
  obtain ⟨ha, hb⟩ := List.append_inj hd hl
  simp only [List.cons.injEq, true_and] at hb
  have hb1 := List.append_cancel_right hb
  exact ⟨encodeChars_injective ha, encodeChars_injective hb1⟩

theorem traceIdField_synthesized (t s : List Byte) (ht : t.length = 16) :
    traceIdField (Sprintf_traceparent (EncodeToString t) (EncodeToString s)) =
      EncodeToString t := by
  have hl : (encodeChars t).length = 32 := by rw [encodeChars_length, ht]
  simp only [traceIdField, Sprintf_traceparent_data, EncodeToString, List.drop_succ_cons,
    List.drop_zero]
  rw [List.take_append_of_le_length (by omega), List.take_of_length_le (by omega)]

/-! ## Lemmas on headers and on the middleware -/

theorem canonical_traceparent : CanonicalMIMEHeaderKey "traceparent" = "Traceparent" := by
  decide

theorem Header.Get_eq_head (h : Header) (key : String) :
    h.Get key = (h.Values key).headD "" := by
  unfold Header.Get Header.Values
  cases h.index (CanonicalMIMEHeaderKey key) <;> rfl

theorem Header.Values_Add (h : Header) (key value : String) :
    (h.Add key value).Values key = h.Values key ++ [value] := by
  simp [Header.Values, Header.Add, Header.index]

theorem Header.entries_Add_of_ne (h : Header) (key value k : String)
    (hk : k ≠ CanonicalMIMEHeaderKey key) : (h.Add key value).entries k = h.entries k := by
  simp [Header.Add, hk]

theorem ensureTraceHeader_ok (next : Handler) (st : World) {t s : List Byte}
    {r1 r2 : RandSource} (ht : readBytes 16 st.cryptoRand = some (t, r1))
    (hs : readBytes 8 r1 = some (s, r2)) :
    ensureTraceHeader next st = next (ensured st t s r2) := by
  simp only [ensureTraceHeader, newTraceparent_ok ht hs, ensured]

theorem handleRequest_done (env : Env) (st : World) {tmpl : pageData → String}
    (htmpl : env.indexHTML = some tmpl) :
    ∃ st1 : World, handleRequest env st = .done st1 ∧ st1.r = st.r ∧
      st1.cryptoRand = st.cryptoRand ∧
      st1.w = st.w ++ [tmpl
        { Traceparent := st.r.Header.Get "traceparent"
          AgentEndpoint := env.agentEndpoint
          OcwScriptEndpoint := env.ocwScriptEndpoint }] := by
  simp only [handleRequest, htmpl]
  exact ⟨_, rfl, rfl, rfl, rfl⟩

theorem sleepDuration_of_range (k : Int) (h0 : 0 ≤ k) (h1 : k < 100) :
    sleepDuration k = (k + 1) * Millisecond := by
  simp only [sleepDuration, wrapInt64, Millisecond]
  omega

theorem Intn_100_range (raw : List Nat) : 0 ≤ (Intn 100 raw).1 ∧ (Intn 100 raw).1 < 100 := by
  cases raw with
  | nil => simp [Intn]
  | cons x rest =>
    simp only [Intn]
    omega

theorem handleRequest_slept (env : Env) (st : World) {tmpl : pageData → String}
    (htmpl : env.indexHTML = some tmpl) :
    handleRequest env st = .done
      { st with
        mathRand := (Intn 100 st.mathRand).2
        slept := st.slept + max (sleepDuration (Intn 100 st.mathRand).1) 0
        w := st.w ++ [tmpl
          { Traceparent := st.r.Header.Get "traceparent"
            AgentEndpoint := env.agentEndpoint
            OcwScriptEndpoint := env.ocwScriptEndpoint }]
        spans := st.spans ++ ["Parse template", "Random delay", "Render template"] } := by
  simp only [handleRequest, htmpl]

/-! ## Evaluation of the definitions on sample inputs -/

theorem randHex_eval_even :
    randHex 4 [some 0, some 255, some 7] = .ok ("00ff", [some 7]) := by decide

theorem randHex_eval_read_fails :
    randHex 4 [some 0, none, some 7] = .error .randRead := by decide

theorem randHex_eval_negative : randHex (-2) [some 0] = .error .makeslice := by decide

theorem randHex_eval_too_large (src : RandSource) :
    randHex 9223372036854775806 src = .error .makeslice := by
  cases src <;> rfl

theorem randHex_eval_trace_id :
    randHex 32 (List.replicate 16 (some 171)) =
      .ok ("abababababababababababababababab", []) := by decide

theorem CanonicalMIMEHeaderKey_eval_mixed :
    CanonicalMIMEHeaderKey "content-TYPE" = "Content-Type" := by decide

theorem CanonicalMIMEHeaderKey_eval_invalid :
    CanonicalMIMEHeaderKey "trace parent" = "trace parent" := by decide

theorem matchesTraceparent_eval_sample : matchesTraceparent sampleTraceparent = true := by
  decide

theorem matchesTraceparent_eval_trailing :
    matchesTraceparent "00-aaaaaaaaaaaaaaaaaaaaaaaaaaaaaaaa-bbbbbbbbbbbbbbbb-01\n" = false := by
  decide

theorem matchesTraceparent_eval_uppercase :
    matchesTraceparent "00-aaaaaaaaaaaaaaaaAaaaaaaaaaaaaaaa-bbbbbbbbbbbbbbbb-01" = false := by
  decide

theorem newTraceparent_eval :
    newTraceparent (List.replicate 24 (some 171)) =
      .ok ("00-abababababababababababababababab-abababababababab-01", []) := by decide

theorem sleepDuration_eval_low : sleepDuration 0 = 1000000 := by decide

theorem sleepDuration_eval_high : sleepDuration 99 = 100000000 := by decide

theorem handleRequest_eval_template_missing (st : World) :
    handleRequest { sampleEnv with indexHTML := none } st = .panicked .templateMust st := rfl

/-! ## The claims -/

/-- Claim C1: for a request with no traceparent header and a random source whose two
reads succeed, the value that `r.Header.Get("traceparent")` returns once
`ensureTraceHeader` has run (in the state handed to the next handler) has 55
characters and matches `^[0-9a-f]{2}-[0-9a-f]{32}-[0-9a-f]{16}-[0-9a-f]{2}$`. -/
theorem ensureTraceHeader_synthesizes_wellformed (st : World) (t s : List Byte)
    (r1 r2 : RandSource) (hno : st.r.Header.Values "traceparent" = [])
    (ht : readBytes 16 st.cryptoRand = some (t, r1)) (hs : readBytes 8 r1 = some (s, r2)) :
    ∃ st1 : World, (∀ next : Handler, ensureTraceHeader next st = next st1) ∧
      (st1.r.Header.Get "traceparent").length = 55 ∧
      matchesTraceparent (st1.r.Header.Get "traceparent") = true := by
  have hget : (ensured st t s r2).r.Header.Get "traceparent" =
      Sprintf_traceparent (EncodeToString t) (EncodeToString s) := by
    rw [Header.Get_eq_head]
    show ((st.r.Header.Add "traceparent" _).Values "traceparent").headD "" = _
    rw [Header.Values_Add, hno]
    rfl
  have hlt := (readBytes_eq_some ht).1
  have hls := (readBytes_eq_some hs).1
  refine ⟨ensured st t s r2, fun next => ensureTraceHeader_ok next st ht hs, ?_, ?_⟩
  · rw [hget]; exact Sprintf_traceparent_length t s hlt hls
  · rw [hget]; exact matchesTraceparent_synthesized t s hlt hls

theorem ensureTraceHeader_synthesizes_wellformed_witness :
    plainWorld.r.Header.Values "traceparent" = [] ∧
    readBytes 16 plainWorld.cryptoRand = some (List.replicate 16 0, List.replicate 8 (some 0)) ∧
    readBytes 8 (List.replicate 8 (some 0)) = some (List.replicate 8 0, []) ∧
    ∃ st1 : World, (∀ next : Handler, ensureTraceHeader next plainWorld = next st1) ∧
      (st1.r.Header.Get "traceparent").length = 55 ∧
      matchesTraceparent (st1.r.Header.Get "traceparent") = true :=
  ⟨by decide, by decide, by decide,
    ensureTraceHeader_synthesizes_wellformed plainWorld (List.replicate 16 0)
      (List.replicate 8 0) (List.replicate 8 (some 0)) [] (by decide) (by decide) (by decide)⟩

/-- Claim C2, at a failing input: for the request that carries the header
`Traceparent: 00-aaaaaaaaaaaaaaaaaaaaaaaaaaaaaaaa-bbbbbbbbbbbbbbbb-01` and a random
source that delivers 24 zero bytes, `ensureTraceHeader` does not pass the request
through unchanged: the next handler is invoked with a second traceparent value
appended, so the header set differs from the one that arrived. -/
theorem ensureTraceHeader_adds_to_present_header :
    tracedWorld.r.Header.Values "traceparent" = [sampleTraceparent] ∧
    (ensureTraceHeader Outcome.done tracedWorld).returned = true ∧
    (ensureTraceHeader Outcome.done tracedWorld).state.r.Header.Values "traceparent" =
      [sampleTraceparent, "00-00000000000000000000000000000000-0000000000000000-01"] ∧
    (ensureTraceHeader Outcome.done tracedWorld).state.r.Header ≠ tracedWorld.r.Header := by
  refine ⟨by decide, by decide, by decide, ?_⟩
  intro h
  have h1 := congrArg (fun hd : Header => hd.Values "traceparent") h
  revert h1
  decide

/-- Claim C3: for a request whose traceparent header is present with first value `v`,
and a random source whose two reads succeed, `ensureTraceHeader` followed by
`handleRequest` returns and hands to the template page data whose `Traceparent`
field is `v`. -/
theorem present_traceparent_reaches_template (env : Env) (tmpl : pageData → String)
    (st : World) (v : String) (vs : List String) (t s : List Byte) (r1 r2 : RandSource)
    (htmpl : env.indexHTML = some tmpl)
    (hv : st.r.Header.Values "traceparent" = v :: vs)
    (ht : readBytes 16 st.cryptoRand = some (t, r1)) (hs : readBytes 8 r1 = some (s, r2)) :
    ∃ st2 : World, ensureTraceHeader (handleRequest env) st = .done st2 ∧
      st2.w = st.w ++ [tmpl
        { Traceparent := v
          AgentEndpoint := env.agentEndpoint
          OcwScriptEndpoint := env.ocwScriptEndpoint }] := by
  have hget : (ensured st t s r2).r.Header.Get "traceparent" = v := by
    rw [Header.Get_eq_head]
    show ((st.r.Header.Add "traceparent" _).Values "traceparent").headD "" = _
    rw [Header.Values_Add, hv]
    rfl
  obtain ⟨st2, hdone, -, -, hw⟩ := handleRequest_done env (ensured st t s r2) htmpl
  refine ⟨st2, ?_, ?_⟩
  · rw [ensureTraceHeader_ok _ st ht hs, hdone]
  · rw [hw, hget]; rfl

theorem present_traceparent_reaches_template_witness :
    sampleEnv.indexHTML = some (fun data => data.Traceparent) ∧
    tracedWorld.r.Header.Values "traceparent" = sampleTraceparent :: [] ∧
    readBytes 16 tracedWorld.cryptoRand = some (List.replicate 16 0, List.replicate 8 (some 0)) ∧
    readBytes 8 (List.replicate 8 (some 0)) = some (List.replicate 8 0, []) ∧
    ∃ st2 : World, ensureTraceHeader (handleRequest sampleEnv) tracedWorld = .done st2 ∧
      st2.w = tracedWorld.w ++ [(fun data : pageData => data.Traceparent)
        { Traceparent := sampleTraceparent
          AgentEndpoint := sampleEnv.agentEndpoint
          OcwScriptEndpoint := sampleEnv.ocwScriptEndpoint }] :=
  ⟨rfl, by decide, by decide, by decide,
    present_traceparent_reaches_template sampleEnv (fun data => data.Traceparent) tracedWorld
      sampleTraceparent [] (List.replicate 16 0) (List.replicate 8 0)
      (List.replicate 8 (some 0)) [] rfl (by decide) (by decide) (by decide)⟩

/-- Claim C4: for a request with no traceparent header, `ensureTraceHeader` takes
exactly 16 bytes `t` and then exactly 8 bytes `s` off the random source, and the
`Traceparent` field that `handleRequest` then hands to the template is
`"00-" ++ hex(t) ++ "-" ++ hex(s) ++ "-01"`, with `hex` the lowercase hexadecimal
encoding `lowerHex`. -/
theorem absent_traceparent_is_synthesized (env : Env) (tmpl : pageData → String)
    (st : World) (t s : List Byte) (r1 r2 : RandSource)
    (htmpl : env.indexHTML = some tmpl)
    (hno : st.r.Header.Values "traceparent" = [])
    (ht : readBytes 16 st.cryptoRand = some (t, r1)) (hs : readBytes 8 r1 = some (s, r2)) :
    t.length = 16 ∧ s.length = 8 ∧ st.cryptoRand = (t ++ s).map some ++ r2 ∧
    ∃ st2 : World, ensureTraceHeader (handleRequest env) st = .done st2 ∧
      st2.cryptoRand = r2 ∧
      st2.w = st.w ++ [tmpl
        { Traceparent := "00-" ++ lowerHex t ++ "-" ++ lowerHex s ++ "-01"
          AgentEndpoint := env.agentEndpoint
          OcwScriptEndpoint := env.ocwScriptEndpoint }] := by
  rw [← EncodeToString_eq_lowerHex t, ← EncodeToString_eq_lowerHex s]
  have hget : (ensured st t s r2).r.Header.Get "traceparent" =
      Sprintf_traceparent (EncodeToString t) (EncodeToString s) := by
    rw [Header.Get_eq_head]
    show ((st.r.Header.Add "traceparent" _).Values "traceparent").headD "" = _
    rw [Header.Values_Add, hno]
    rfl
  obtain ⟨hlt, et⟩ := readBytes_eq_some ht
  obtain ⟨hls, es⟩ := readBytes_eq_some hs
  obtain ⟨st2, hdone, -, hrand, hw⟩ := handleRequest_done env (ensured st t s r2) htmpl
  refine ⟨hlt, hls, ?_, st2, ?_, ?_, ?_⟩
  · rw [et, es]; simp
  · rw [ensureTraceHeader_ok _ st ht hs, hdone]
  · rw [hrand]; rfl
  · rw [hw, hget]; rfl

theorem absent_traceparent_is_synthesized_witness :
    sampleEnv.indexHTML = some (fun data => data.Traceparent) ∧
    plainWorld.r.Header.Values "traceparent" = [] ∧
    readBytes 16 plainWorld.cryptoRand = some (List.replicate 16 0, List.replicate 8 (some 0)) ∧
    readBytes 8 (List.replicate 8 (some 0)) = some (List.replicate 8 0, []) ∧
    (List.replicate 16 (0 : Byte)).length = 16 ∧ (List.replicate 8 (0 : Byte)).length = 8 ∧
    plainWorld.cryptoRand =
      (List.replicate 16 (0 : Byte) ++ List.replicate 8 (0 : Byte)).map some ++ ([] : RandSource) ∧
    ∃ st2 : World, ensureTraceHeader (handleRequest sampleEnv) plainWorld = .done st2 ∧
      st2.cryptoRand = [] ∧
      st2.w = plainWorld.w ++ [(fun data : pageData => data.Traceparent)
        { Traceparent := "00-" ++ lowerHex (List.replicate 16 0) ++ "-" ++
            lowerHex (List.replicate 8 0) ++ "-01"
          AgentEndpoint := sampleEnv.agentEndpoint
          OcwScriptEndpoint := sampleEnv.ocwScriptEndpoint }] :=
  ⟨rfl, by decide, by decide, by decide,
    absent_traceparent_is_synthesized sampleEnv (fun data => data.Traceparent) plainWorld
      (List.replicate 16 0) (List.replicate 8 0) (List.replicate 8 (some 0)) []
      rfl (by decide) (by decide) (by decide)⟩

/-- Claim C5: when a read of the random source fails during the synthesis (the read
of the 16 bytes of the trace id, or the read of the 8 bytes of the span id after
the first read went through), `ensureTraceHeader` panics whatever the next handler
is: the request, its header set included, is as it arrived, the next handler is
not invoked, and nothing is written to the response. -/
theorem ensureTraceHeader_panics_on_read_failure (st : World)
    (hfail : readBytes 16 st.cryptoRand = none ∨
      ∃ t r1, readBytes 16 st.cryptoRand = some (t, r1) ∧ readBytes 8 r1 = none) :
    ∃ st1 : World, (∀ next : Handler, ensureTraceHeader next st = .panicked .randRead st1) ∧
      st1.r = st.r ∧ st1.r.Header = st.r.Header ∧ st1.w = st.w ∧ st1.spans = st.spans ∧
      st1.slept = st.slept ∧ st1.mathRand = st.mathRand := by
  rcases hfail with h1 | ⟨t, r1, h1, h2⟩
  · refine ⟨{ st with cryptoRand := st.cryptoRand }, fun next => ?_, rfl, rfl, rfl, rfl, rfl, rfl⟩
    simp only [ensureTraceHeader, newTraceparent_first_fails h1]
  · refine ⟨{ st with cryptoRand := r1 }, fun next => ?_, rfl, rfl, rfl, rfl, rfl, rfl⟩
    simp only [ensureTraceHeader, newTraceparent_second_fails h1 h2]

theorem ensureTraceHeader_panics_on_read_failure_witness :
    (readBytes 16 brokenWorld.cryptoRand = none ∨
      ∃ t r1, readBytes 16 brokenWorld.cryptoRand = some (t, r1) ∧ readBytes 8 r1 = none) ∧
    ∃ st1 : World,
      (∀ next : Handler, ensureTraceHeader next brokenWorld = .panicked .randRead st1) ∧
      st1.r = brokenWorld.r ∧ st1.r.Header = brokenWorld.r.Header ∧ st1.w = brokenWorld.w ∧
      st1.spans = brokenWorld.spans ∧ st1.slept = brokenWorld.slept ∧
      st1.mathRand = brokenWorld.mathRand :=
  ⟨Or.inr ⟨List.replicate 16 0, [none], by decide, by decide⟩,
    ensureTraceHeader_panics_on_read_failure brokenWorld
      (Or.inr ⟨List.replicate 16 0, [none], by decide, by decide⟩)⟩

/-- Claim C6: in the pipeline of `main` (`ensureTraceHeader` around `ochttp.Handler`
around the serve mux), for every request and every random source whose two reads
succeed, the header is ensured first: the instrumentation is entered in a state
`st1` whose request has at least one traceparent value, `Get("traceparent")` is
empty there only if the client sent an empty first value, and, when the
instrumentation forwards the header set and the mux selects `"/"`, `handleRequest`
runs on that same header set. -/
theorem mainHandler_ensures_header_first (env : Env) (st : World) (t s : List Byte)
    (r1 r2 : RandSource)
    (ht : readBytes 16 st.cryptoRand = some (t, r1)) (hs : readBytes 8 r1 = some (s, r2)) :
    ∃ st1 : World,
      (∀ (route : Request → Route) (fs : Handler) (startTrace : World → World)
          (traceEnd : Outcome → Outcome),
        mainHandler env route fs startTrace traceEnd st =
          OchttpHandler.ServeHTTP
            { Handler := ServeMux.ServeHTTP
                { route := route, handleRoot := handleRequest env, handleStatic := fs }
              startTrace := startTrace
              traceEnd := traceEnd } st1) ∧
      st1.r.Header.Values "traceparent" ≠ [] ∧
      (st1.r.Header.Get "traceparent" = "" →
        (st.r.Header.Values "traceparent").head? = some "") ∧
      (∀ (route : Request → Route) (fs : Handler) (startTrace : World → World)
          (traceEnd : Outcome → Outcome),
        (startTrace st1).r.Header = st1.r.Header → route (startTrace st1).r = Route.root →
          mainHandler env route fs startTrace traceEnd st =
              traceEnd (handleRequest env (startTrace st1)) ∧
            (startTrace st1).r.Header.Values "traceparent" ≠ []) := by
  have hvals : (ensured st t s r2).r.Header.Values "traceparent" =
      st.r.Header.Values "traceparent" ++
        [Sprintf_traceparent (EncodeToString t) (EncodeToString s)] :=
    Header.Values_Add _ _ _
  have hne : (ensured st t s r2).r.Header.Values "traceparent" ≠ [] := by
    rw [hvals]; simp
  refine ⟨ensured st t s r2, ?_, hne, ?_, ?_⟩
  · intro route fs startTrace traceEnd
    simp only [mainHandler]
    exact ensureTraceHeader_ok _ st ht hs
  · rw [Header.Get_eq_head, hvals]
    cases hv : st.r.Header.Values "traceparent" with
    | nil =>
      intro h
      have hlen := congrArg String.length h
      rw [List.nil_append, List.headD_cons,
        Sprintf_traceparent_length t s (readBytes_eq_some ht).1 (readBytes_eq_some hs).1] at hlen
      exact absurd hlen (by decide)
    | cons v vs =>
      intro h
      simp only [List.cons_append, List.headD_cons] at h
      simp [h]
  · intro route fs startTrace traceEnd hfwd hroute
    refine ⟨?_, by rw [hfwd]; exact hne⟩
    simp only [mainHandler]
    rw [ensureTraceHeader_ok _ st ht hs]
    simp only [OchttpHandler.ServeHTTP, ServeMux.ServeHTTP, hroute]

theorem mainHandler_ensures_header_first_witness :
    readBytes 16 plainWorld.cryptoRand = some (List.replicate 16 0, List.replicate 8 (some 0)) ∧
    readBytes 8 (List.replicate 8 (some 0)) = some (List.replicate 8 0, []) ∧
    ∃ st1 : World,
      (∀ (route : Request → Route) (fs : Handler) (startTrace : World → World)
          (traceEnd : Outcome → Outcome),
        mainHandler sampleEnv route fs startTrace traceEnd plainWorld =
          OchttpHandler.ServeHTTP
            { Handler := ServeMux.ServeHTTP
                { route := route, handleRoot := handleRequest sampleEnv, handleStatic := fs }
              startTrace := startTrace
              traceEnd := traceEnd } st1) ∧
      st1.r.Header.Values "traceparent" ≠ [] ∧
      (st1.r.Header.Get "traceparent" = "" →
        (plainWorld.r.Header.Values "traceparent").head? = some "") ∧
      (∀ (route : Request → Route) (fs : Handler) (startTrace : World → World)
          (traceEnd : Outcome → Outcome),
        (startTrace st1).r.Header = st1.r.Header → route (startTrace st1).r = Route.root →
          mainHandler sampleEnv route fs startTrace traceEnd plainWorld =
              traceEnd (handleRequest sampleEnv (startTrace st1)) ∧
            (startTrace st1).r.Header.Values "traceparent" ≠ []) :=
  ⟨by decide, by decide,
    mainHandler_ensures_header_first sampleEnv plainWorld (List.replicate 16 0)
      (List.replicate 8 0) (List.replicate 8 (some 0)) [] (by decide) (by decide)⟩

/-- Claim C7, at a failing input: `randHex(1)` does not return a string of length 1.
Whatever the random source holds, the read of `1/2 = 0` bytes succeeds, the
encoded string is empty and the slice expression `[:1]` panics. -/
theorem randHex_one_panics (src : RandSource) : randHex 1 src = .error .sliceBounds := by
  cases src <;> rfl

/-- Claim C8: whenever `rand.Intn(100)` returns `k` in `handleRequest`, `k` lies in
`[0, 100)`, the handler returns, and the time it has slept is `k + 1` milliseconds,
which lies between 1 ms and 100 ms; every `k` of `[0, 100)` is returned for some
state of `math/rand`, and the handler then sleeps `k + 1` milliseconds, so that
1 ms (at `k = 0`) and 100 ms (at `k = 99`) are attained. -/
theorem handleRequest_delay_range (env : Env) (tmpl : pageData → String) (st : World)
    (k : Int) (htmpl : env.indexHTML = some tmpl) (hk : (Intn 100 st.mathRand).1 = k) :
    0 ≤ k ∧ k < 100 ∧
    (∃ st1 : World, handleRequest env st = .done st1 ∧
      st1.slept - st.slept = (k + 1) * Millisecond ∧
      1 * Millisecond ≤ st1.slept - st.slept ∧ st1.slept - st.slept ≤ 100 * Millisecond) ∧
    (∀ j : Int, 0 ≤ j → j < 100 →
      (Intn 100 [j.toNat]).1 = j ∧
      ∃ st1 : World, handleRequest env { st with mathRand := [j.toNat] } = .done st1 ∧
        st1.slept - st.slept = (j + 1) * Millisecond) ∧
    (∃ st1 : World, handleRequest env { st with mathRand := [0] } = .done st1 ∧
      st1.slept - st.slept = 1 * Millisecond) ∧
    (∃ st1 : World, handleRequest env { st with mathRand := [99] } = .done st1 ∧
      st1.slept - st.slept = 100 * Millisecond) := by
  obtain ⟨h0, h1⟩ := Intn_100_range st.mathRand
  rw [hk] at h0 h1
  have hd := sleepDuration_of_range k h0 h1
  refine ⟨h0, h1, ?_, ?_, ?_, ?_⟩
  · refine ⟨_, handleRequest_slept env st htmpl, ?_⟩
    simp only [hk, hd, Millisecond]
    omega
  · intro j hj0 hj1
    have hj : (Intn 100 [j.toNat]).1 = j := by
      simp only [Intn]
      omega
    refine ⟨hj, _, handleRequest_slept env { st with mathRand := [j.toNat] } htmpl, ?_⟩
    simp only [hj, sleepDuration_of_range j hj0 hj1, Millisecond]
    omega
  · refine ⟨_, handleRequest_slept env { st with mathRand := [0] } htmpl, ?_⟩
    have e : sleepDuration (Intn 100 [0]).1 = 1000000 := by decide
    simp only [e, Millisecond]
    omega
  · refine ⟨_, handleRequest_slept env { st with mathRand := [99] } htmpl, ?_⟩
    have e : sleepDuration (Intn 100 [99]).1 = 100000000 := by decide
    simp only [e, Millisecond]
    omega

theorem handleRequest_delay_range_witness :
    sampleEnv.indexHTML = some (fun data => data.Traceparent) ∧
    (Intn 100 plainWorld.mathRand).1 = 41 ∧
    (0 : Int) ≤ 41 ∧ (41 : Int) < 100 ∧
    (∃ st1 : World, handleRequest sampleEnv plainWorld = .done st1 ∧
      st1.slept - plainWorld.slept = (41 + 1) * Millisecond ∧
      1 * Millisecond ≤ st1.slept - plainWorld.slept ∧
      st1.slept - plainWorld.slept ≤ 100 * Millisecond) ∧
    (∀ j : Int, 0 ≤ j → j < 100 →
      (Intn 100 [j.toNat]).1 = j ∧
      ∃ st1 : World,
        handleRequest sampleEnv { plainWorld with mathRand := [j.toNat] } = .done st1 ∧
        st1.slept - plainWorld.slept = (j + 1) * Millisecond) ∧
    (∃ st1 : World, handleRequest sampleEnv { plainWorld with mathRand := [0] } = .done st1 ∧
      st1.slept - plainWorld.slept = 1 * Millisecond) ∧
    (∃ st1 : World, handleRequest sampleEnv { plainWorld with mathRand := [99] } = .done st1 ∧
      st1.slept - plainWorld.slept = 100 * Millisecond) :=
  ⟨rfl, by decide,
    handleRequest_delay_range sampleEnv (fun data => data.Traceparent) plainWorld 41 rfl
      (by decide)⟩

/-- Claim C9: for every request and every random source whose two reads succeed,
`ensureTraceHeader` changes the headers only by appending one value at the end of
the list under `Traceparent`: the entry of every other name is unchanged, the
values already there keep their place, and there is exactly one value more. -/
theorem ensureTraceHeader_appends_one_value (st : World) (t s : List Byte)
    (r1 r2 : RandSource)
    (ht : readBytes 16 st.cryptoRand = some (t, r1)) (hs : readBytes 8 r1 = some (s, r2)) :
    ∃ (st1 : World) (value : String),
      (∀ next : Handler, ensureTraceHeader next st = next st1) ∧
      (∀ k : String, k ≠ "Traceparent" → st1.r.Header.entries k = st.r.Header.entries k) ∧
      st1.r.Header.Values "traceparent" = st.r.Header.Values "traceparent" ++ [value] ∧
      (st1.r.Header.Values "traceparent").length =
        (st.r.Header.Values "traceparent").length + 1 ∧
      st1.r.Path = st.r.Path := by
  have hvals : (ensured st t s r2).r.Header.Values "traceparent" =
      st.r.Header.Values "traceparent" ++
        [Sprintf_traceparent (EncodeToString t) (EncodeToString s)] :=
    Header.Values_Add _ _ _
  refine ⟨ensured st t s r2, Sprintf_traceparent (EncodeToString t) (EncodeToString s),
    fun next => ensureTraceHeader_ok next st ht hs, ?_, hvals, ?_, rfl⟩
  · intro k hk
    exact Header.entries_Add_of_ne _ _ _ _ (by rw [canonical_traceparent]; exact hk)
  · rw [hvals]; simp

theorem ensureTraceHeader_appends_one_value_witness :
    readBytes 16 tracedWorld.cryptoRand = some (List.replicate 16 0, List.replicate 8 (some 0)) ∧
    readBytes 8 (List.replicate 8 (some 0)) = some (List.replicate 8 0, []) ∧
    ∃ (st1 : World) (value : String),
      (∀ next : Handler, ensureTraceHeader next tracedWorld = next st1) ∧
      (∀ k : String, k ≠ "Traceparent" →
        st1.r.Header.entries k = tracedWorld.r.Header.entries k) ∧
      st1.r.Header.Values "traceparent" =
        tracedWorld.r.Header.Values "traceparent" ++ [value] ∧
      (st1.r.Header.Values "traceparent").length =
        (tracedWorld.r.Header.Values "traceparent").length + 1 ∧
      st1.r.Path = tracedWorld.r.Path :=
  ⟨by decide, by decide,
    ensureTraceHeader_appends_one_value tracedWorld (List.replicate 16 0)
      (List.replicate 8 0) (List.replicate 8 (some 0)) [] (by decide) (by decide)⟩

/-- Claim C10: the synthesized traceparent is a function of the 24 bytes drawn, and an
injective one: for two draws `(t1, s1)` and `(t2, s2)` of 16 and 8 bytes the
synthesized strings are equal if and only if `t1 = t2` and `s1 = s2`, and
`t1 ≠ t2` makes the 32-character trace-id fields differ. -/
theorem newTraceparent_injective (src1 src2 : RandSource) (t1 s1 t2 s2 : List Byte)
    (m1 e1 m2 e2 : RandSource)
    (ht1 : readBytes 16 src1 = some (t1, m1)) (hs1 : readBytes 8 m1 = some (s1, e1))
    (ht2 : readBytes 16 src2 = some (t2, m2)) (hs2 : readBytes 8 m2 = some (s2, e2)) :
    ∃ p1 p2 : String,
      newTraceparent src1 = .ok (p1, e1) ∧ newTraceparent src2 = .ok (p2, e2) ∧
      p1 = Sprintf_traceparent (EncodeToString t1) (EncodeToString s1) ∧
      p2 = Sprintf_traceparent (EncodeToString t2) (EncodeToString s2) ∧
      (p1 = p2 ↔ t1 = t2 ∧ s1 = s2) ∧
      (t1 ≠ t2 → traceIdField p1 ≠ traceIdField p2) := by
  have hl1 := (readBytes_eq_some ht1).1
  have hl2 := (readBytes_eq_some ht2).1
  refine ⟨_, _, newTraceparent_ok ht1 hs1, newTraceparent_ok ht2 hs2, rfl, rfl, ?_, ?_⟩
  · constructor
    · intro h
      exact Sprintf_traceparent_injective (by rw [hl1, hl2]) h
    · rintro ⟨rfl, rfl⟩
      rfl
  · intro hne h
    rw [traceIdField_synthesized t1 s1 hl1, traceIdField_synthesized t2 s2 hl2] at h
    exact hne (encodeChars_injective (congrArg String.data h))

theorem newTraceparent_injective_witness :
    readBytes 16 (List.replicate 24 (some 0)) =
      some (List.replicate 16 0, List.replicate 8 (some 0)) ∧
    readBytes 8 (List.replicate 8 (some 0)) = some (List.replicate 8 0, []) ∧
    readBytes 16 (List.replicate 24 (some 255)) =
      some (List.replicate 16 255, List.replicate 8 (some 255)) ∧
    readBytes 8 (List.replicate 8 (some 255)) = some (List.replicate 8 255, []) ∧
    ∃ p1 p2 : String,
      newTraceparent (List.replicate 24 (some 0)) = .ok (p1, []) ∧
      newTraceparent (List.replicate 24 (some 255)) = .ok (p2, []) ∧
      p1 = Sprintf_traceparent (EncodeToString (List.replicate 16 0))
        (EncodeToString (List.replicate 8 0)) ∧
      p2 = Sprintf_traceparent (EncodeToString (List.replicate 16 255))
        (EncodeToString (List.replicate 8 255)) ∧
      (p1 = p2 ↔ List.replicate 16 (0 : Byte) = List.replicate 16 255 ∧
        List.replicate 8 (0 : Byte) = List.replicate 8 255) ∧
      (List.replicate 16 (0 : Byte) ≠ List.replicate 16 255 →
        traceIdField p1 ≠ traceIdField p2) :=
  ⟨by decide, by decide, by decide, by decide,
    newTraceparent_injective (List.replicate 24 (some 0)) (List.replicate 24 (some 255))
      (List.replicate 16 0) (List.replicate 8 0) (List.replicate 16 255)
      (List.replicate 8 255) (List.replicate 8 (some 0)) [] (List.replicate 8 (some 255)) []
      (by decide) (by decide) (by decide) (by decide)⟩

end InitialLoad
